import Mathlib

/-!
Verification of the Mycroft Mark 1 enclosure client
(`mycroft/client/enclosure/enclosure.py`): a shallow embedding of the
serial-bridge data model (reader dispatch, bounded writer queue, platform
detection handshake, bus-subscription toggling) together with theorems
about the behaviour specified for it.
-/

namespace Enclosure

/-! ## Substring containment (Python `pat in data`) -/

/-- Whether `pat` is a leading segment of `data` (character lists). -/
def leadsWith : List Char → List Char → Bool
  | _, [] => true
  | [], _ :: _ => false
  | c :: cs, p :: ps => (c = p) && leadsWith cs ps

/-- Whether `pat` occurs as a contiguous substring of `data`
(the semantics of Python's `pat in data` on strings). -/
def containsSub (pat : List Char) : List Char → Bool
  | [] => leadsWith [] pat
  | c :: rest => leadsWith (c :: rest) pat || containsSub pat rest

/-! ## Side effects of the reader dispatch (`EnclosureReader.process`) -/

/-- One observable side effect performed while dispatching an inbound line:
a bus emission (`client.emit`), a persisted signal (`create_signal`), an
ALSA mixer volume change, an audio record/playback, a fixed sleep (in tenths
of a second), or a shell invocation (`subprocess.call`). -/
inductive Effect where
  | emit (msg : String) (meta : List (String × String))
  | create_signal (sig : String)
  | mixer_set_volume (v : Nat)
  | record_audio (path : String) (tenths : Nat)
  | play_wav (path : String)
  | sleep_for (tenths : Nat)
  | subprocess_call (cmd : String)
  deriving DecidableEq, Repr

/-- `EnclosureReader.process`, translated if-branch by if-branch from the
source: first the raw line is emitted verbatim, then each substring check
runs in source order, appending that branch's side effects when the pattern
occurs in the line.  `prev_vol` stands for `mixer.getvolume()[0]` read at
the start of the `mic.test` branch. -/
def process (prev_vol : Nat) (data : List Char) : List Effect :=
  Effect.emit (String.mk data) [] ::
  ((if containsSub "mycroft.stop".toList data then
      [Effect.create_signal "buttonPress", Effect.emit "mycroft.stop" []]
    else []) ++
   ((if containsSub "volume.up".toList data then
       [Effect.emit "IncreaseVolumeIntent" [("play_sound", "True")]]
     else []) ++
    ((if containsSub "volume.down".toList data then
        [Effect.emit "DecreaseVolumeIntent" [("play_sound", "True")]]
      else []) ++
     ((if containsSub "system.test.begin".toList data then
         [Effect.emit "recognizer_loop:sleep" []]
       else []) ++
      ((if containsSub "system.test.end".toList data then
          [Effect.emit "recognizer_loop:wake_up" []]
        else []) ++
       ((if containsSub "mic.test".toList data then
           [Effect.mixer_set_volume 35,
            Effect.emit "speak" [("utterance", "I am testing one two three")],
            Effect.sleep_for 5,
            Effect.record_audio "/tmp/test.wav" 30,
            Effect.mixer_set_volume prev_vol,
            Effect.play_wav "/tmp/test.wav",
            Effect.sleep_for 35,
            Effect.subprocess_call "speaker-test -P 10 -l 0 -s 1"]
         else []) ++
        ((if containsSub "unit.shutdown".toList data then
            [Effect.emit "enclosure.eyes.timedspin" [("length", "12000")],
             Effect.emit "enclosure.mouth.reset" [],
             Effect.subprocess_call "systemctl poweroff -i"]
          else []) ++
         ((if containsSub "unit.reboot".toList data then
             [Effect.emit "enclosure.eyes.spin" [],
              Effect.emit "enclosure.mouth.reset" [],
              Effect.subprocess_call "systemctl reboot -i"]
           else []) ++
          ((if containsSub "unit.setwifi".toList data then
              [Effect.emit "mycroft.wifi.start" []]
            else []) ++
           (if containsSub "unit.factory-reset".toList data then
              [Effect.subprocess_call "rm ~/.mycroft/identity/identity.json",
               Effect.emit "enclosure.eyes.spin" [],
               Effect.emit "enclosure.mouth.reset" [],
               Effect.subprocess_call "systemctl reboot -i"]
            else []))))))))))

/-- The dispatch table: the ten substring rules of `process` in source
order, each paired with the side effects its branch performs. -/
def dispatch_table (prev_vol : Nat) : List (List Char × List Effect) :=
  [("mycroft.stop".toList,
    [Effect.create_signal "buttonPress", Effect.emit "mycroft.stop" []]),
   ("volume.up".toList,
    [Effect.emit "IncreaseVolumeIntent" [("play_sound", "True")]]),
   ("volume.down".toList,
    [Effect.emit "DecreaseVolumeIntent" [("play_sound", "True")]]),
   ("system.test.begin".toList,
    [Effect.emit "recognizer_loop:sleep" []]),
   ("system.test.end".toList,
    [Effect.emit "recognizer_loop:wake_up" []]),
   ("mic.test".toList,
    [Effect.mixer_set_volume 35,
     Effect.emit "speak" [("utterance", "I am testing one two three")],
     Effect.sleep_for 5,
     Effect.record_audio "/tmp/test.wav" 30,
     Effect.mixer_set_volume prev_vol,
     Effect.play_wav "/tmp/test.wav",
     Effect.sleep_for 35,
     Effect.subprocess_call "speaker-test -P 10 -l 0 -s 1"]),
   ("unit.shutdown".toList,
    [Effect.emit "enclosure.eyes.timedspin" [("length", "12000")],
     Effect.emit "enclosure.mouth.reset" [],
     Effect.subprocess_call "systemctl poweroff -i"]),
   ("unit.reboot".toList,
    [Effect.emit "enclosure.eyes.spin" [],
     Effect.emit "enclosure.mouth.reset" [],
     Effect.subprocess_call "systemctl reboot -i"]),
   ("unit.setwifi".toList,
    [Effect.emit "mycroft.wifi.start" []]),
   ("unit.factory-reset".toList,
    [Effect.subprocess_call "rm ~/.mycroft/identity/identity.json",
     Effect.emit "enclosure.eyes.spin" [],
     Effect.emit "enclosure.mouth.reset" [],
     Effect.subprocess_call "systemctl reboot -i"])]

/-- The spec's reading of dispatch: raw line first, then every rule of the
table whose substring occurs in the line contributes its effects exactly
once, in table order, independently of the other rules. -/
def dispatch_spec (prev_vol : Nat) (data : List Char) : List Effect :=
  Effect.emit (String.mk data) [] ::
  (dispatch_table prev_vol).flatMap
    (fun r => if containsSub r.1 data then r.2 else [])

/-! ## The reader dispatch under branch failures (`EnclosureReader.read`) -/

/-- The ten substring patterns of the dispatch table, numbered in source
order. -/
def indexed_patterns : List (Nat × List Char) :=
  [(0, "mycroft.stop".toList),
   (1, "volume.up".toList),
   (2, "volume.down".toList),
   (3, "system.test.begin".toList),
   (4, "system.test.end".toList),
   (5, "mic.test".toList),
   (6, "unit.shutdown".toList),
   (7, "unit.reboot".toList),
   (8, "unit.setwifi".toList),
   (9, "unit.factory-reset".toList)]

/-- Run the sequential if-chain of `process` over a pattern table when the
body of branch `i` raises exactly when `fault i` is true.  Returns the
indices of the branches whose bodies started executing and, when a branch
raised, its index.  As in the source, a raise aborts the rest of the chain:
nothing after the raising branch runs. -/
def run_table (fault : Nat → Bool) (data : List Char) :
    List (Nat × List Char) → List Nat × Option Nat
  | [] => ([], none)
  | (i, pat) :: rest =>
    if containsSub pat data then
      if fault i then ([i], some i)
      else (i :: (run_table fault data rest).1, (run_table fault data rest).2)
    else run_table fault data rest

/-- `EnclosureReader.process` under a per-branch fault oracle: which
branches fired on `data`, and which branch (if any) raised. -/
def process_faulty (fault : Nat → Bool) (data : List Char) :
    List Nat × Option Nat :=
  run_table fault data indexed_patterns

/-- Strip applied by `EnclosureReader.read` to each raw line:
`self.serial.readline()[:-2]` removes the last two characters. -/
def read_strip (raw : List Char) : List Char :=
  raw.take (raw.length - 2)

/-- One iteration of the `EnclosureReader.read` loop under a fault oracle:
strip the raw line, and when the result is non-empty dispatch it; the
`try/except` around the iteration catches any exception a branch raised,
so the iteration always completes.  `none` records a line skipped by the
`if data:` guard. -/
def read_iteration (fault : Nat → Bool) (raw : List Char) :
    Option (List Nat × Option Nat) :=
  if read_strip raw = [] then none
  else some (process_faulty fault (read_strip raw))

/-- The `EnclosureReader.read` loop over a finite arrival sequence of raw
lines; line number `k` runs under fault oracle `faults k`.  Because every
exception is caught inside the loop body, each line yields exactly one
iteration result and the loop always proceeds to the next line. -/
def read_loop (faults : Nat → Nat → Bool) (k : Nat) :
    List (List Char) → List (Option (List Nat × Option Nat))
  | [] => []
  | raw :: rest => read_iteration (faults k) raw :: read_loop faults (k + 1) rest

/-! ## The writer (`EnclosureWriter`): bounded FIFO queue and flush loop -/

/-- Default capacity of the outbound command queue
(`EnclosureWriter.__init__` parameter `size=16`). -/
def writer_default_size : Nat := 16

/-- An operation on the shared outbound queue: a producer calling
`EnclosureWriter.write` (which does `self.commands.put(cmd)`), or the
writer loop dequeueing one command and writing it to the serial port. -/
inductive QOp where
  | enq (c : String)
  | deq
  deriving DecidableEq, Repr

/-- One transition of the queue/serial system.  State is
(queued commands, lines written to the serial port so far).  `Queue.put`
on a full queue and `Queue.get` on an empty queue block the caller:
the operation is not enabled (`none`) and nothing changes, nothing is
dropped.  A dequeue writes the command with `'\n'` appended, as in
`self.serial.write(cmd + '\n')`. -/
def wstep (cap : Nat) : List String × List String → QOp →
    Option (List String × List String)
  | (q, w), QOp.enq c => if q.length < cap then some (q ++ [c], w) else none
  | (q, w), QOp.deq =>
    match q with
    | [] => none
    | c :: rest => some (rest, w ++ [c ++ "\n"])

/-- Run a sequence of queue operations from a state; `none` when some
operation in the sequence was not enabled at its turn. -/
def wrun (cap : Nat) (s : List String × List String) :
    List QOp → Option (List String × List String)
  | [] => some s
  | op :: ops =>
    match wstep cap s op with
    | some s2 => wrun cap s2 ops
    | none => none

/-- The commands submitted by the enqueue operations of a run, in
submission order. -/
def enqs : List QOp → List String
  | [] => []
  | QOp.enq c :: ops => c :: enqs ops
  | QOp.deq :: ops => enqs ops

/-- Number of dequeue operations in a run. -/
def deq_count : List QOp → Nat
  | [] => 0
  | QOp.enq _ :: ops => deq_count ops
  | QOp.deq :: ops => 1 + deq_count ops

/-- The serial-line history a state determines: everything already written,
followed by the queued commands still awaiting their newline-terminated
write, in queue order. -/
def flow (s : List String × List String) : List String :=
  s.2 ++ s.1.map (fun c => c ++ "\n")

/-- An event of the `EnclosureWriter.flush` loop: a successful serial
write, or a caught-and-logged write failure. -/
inductive WEvent where
  | wrote (line : String)
  | logged_error
  deriving DecidableEq, Repr

/-- The body of one `flush` iteration: dequeue `cmd`, then attempt
`self.serial.write(cmd + '\n')`, which raises when the transport fails. -/
def flush_body (fail : Bool) (cmd : String) : Except Unit String :=
  if fail then Except.error () else Except.ok (cmd ++ "\n")

/-- One `flush` iteration with its surrounding `try/except`: a raised
write error is caught and logged, and the loop moves on. -/
def flush_iteration (fail : Bool) (cmd : String) : WEvent :=
  match flush_body fail cmd with
  | Except.ok line => WEvent.wrote line
  | Except.error _ => WEvent.logged_error

/-- The `EnclosureWriter.flush` loop over the stream of dequeued commands,
where the write of command number `i` fails exactly when `fail_at i` is
true.  Each command is dequeued once, attempted once, and the loop
continues regardless of the outcome. -/
def flush (fail_at : Nat → Bool) (i : Nat) : List String → List WEvent
  | [] => []
  | cmd :: rest => flush_iteration (fail_at i) cmd :: flush fail_at (i + 1) rest

/-- `Enclosure.__handle_reset`: two calls to `self.writer.write`, first
`"eyes.reset"`, then `"mouth.reset"`. -/
def handle_reset_ops : List QOp :=
  [QOp.enq "eyes.reset", QOp.enq "mouth.reset"]

/-! ## Platform detection (`Enclosure.detect_platform`, `Enclosure.__init__`) -/

/-- Outcome of each serial operation during one handshake attempt of
`detect_platform`: opening the port (`__init_serial`), the two flushes,
writing `"system.ping"`, reading one reply line, and the post-match input
flush.  `Except.error ()` models the operation raising. -/
structure SerialTry where
  init_serial : Except Unit Unit
  flush_input : Except Unit Unit
  flush_output : Except Unit Unit
  write_ping : Except Unit Unit
  readline : Except Unit (List Char)
  flush_input2 : Except Unit Unit
  deriving Repr

/-- The echo a Mark 1 Arduino prepends to the ping reply. -/
def ping_echo : List Char := "Command: system.ping".toList

/-- The `try` block of `detect_platform`, operation by operation: open,
settle, flush both directions, write the ping, read one line; when the
reply contains `Command: system.ping`, flush input again and resolve
`some "mycroft_mark_1"`; a clean fall-through resolves `none`.  Any
raising operation short-circuits with the exception. -/
def detect_body (env : SerialTry) : Except Unit (Option String) :=
  match env.init_serial with
  | Except.error e => Except.error e
  | Except.ok _ =>
    match env.flush_input with
    | Except.error e => Except.error e
    | Except.ok _ =>
      match env.flush_output with
      | Except.error e => Except.error e
      | Except.ok _ =>
        match env.write_ping with
        | Except.error e => Except.error e
        | Except.ok _ =>
          match env.readline with
          | Except.error e => Except.error e
          | Except.ok data =>
            if containsSub ping_echo data then
              match env.flush_input2 with
              | Except.error e => Except.error e
              | Except.ok _ => Except.ok (some "mycroft_mark_1")
            else Except.ok none

/-- `Enclosure.detect_platform`: the `try` block with its bare `except:
pass`, falling through to `return "unknown"` both on an exception and on a
non-matching (or empty) reply. -/
def detect_platform (env : SerialTry) : String :=
  match detect_body env with
  | Except.ok (some p) => p
  | Except.ok none => "unknown"
  | Except.error _ => "unknown"

/-- Result of the detection phase of `Enclosure.__init__` when no platform
is configured: the platform value persisted via `ConfigurationManager.set`,
the number of handshake attempts that ran, and whether startup then failed
with the "Not a Mycroft Mark 1" exception. -/
structure StartupResult where
  platform : String
  attempts : Nat
  startup_failed : Bool
  deriving DecidableEq, Repr

/-- The detection phase of `Enclosure.__init__` for an unconfigured
platform: run one handshake; if it resolved `"unknown"`, run exactly one
more and keep that result; persist the result; startup fails unless the
final result is `"mycroft_mark_1"`.  `tr n` is the serial behaviour seen
by attempt `n`. -/
def startup_detect (tr : Nat → SerialTry) : StartupResult :=
  if detect_platform (tr 0) = "unknown" then
    { platform := detect_platform (tr 1)
      attempts := 2
      startup_failed := detect_platform (tr 1) ≠ "mycroft_mark_1" }
  else
    { platform := detect_platform (tr 0)
      attempts := 1
      startup_failed := detect_platform (tr 0) ≠ "mycroft_mark_1" }

/-- A transport attempt on which every serial operation succeeds and the
read times out returning the empty line: a device that never replies. -/
def silent_try : SerialTry :=
  { init_serial := Except.ok ()
    flush_input := Except.ok ()
    flush_output := Except.ok ()
    write_ping := Except.ok ()
    readline := Except.ok []
    flush_input2 := Except.ok () }

/-- A transport attempt on which every serial operation succeeds and the
read returns reply line `d`. -/
def replying_try (d : List Char) : SerialTry :=
  { init_serial := Except.ok ()
    flush_input := Except.ok ()
    flush_output := Except.ok ()
    write_ping := Except.ok ()
    readline := Except.ok d
    flush_input2 := Except.ok () }

/-! ## Bus subscriptions (`Enclosure.__register_mouth_events` and friends) -/

/-- Modelled from the spec: the message-bus client's registration table
(`WebsocketClient.on` / `WebsocketClient.remove`), whose implementation is
not part of this repository's sources.  Per the spec's subscription
contract — "no duplicate handler registration, no error on redundant
removal" — `on` records an (event, handler) pair at most once and `remove`
erases whatever occurrences exist, raising no error when there are none.
Handlers are identified by name (e.g. `mouth.listen`). -/
structure BusClient where
  handlers : List (String × String)
  deriving DecidableEq, Repr

/-- Modelled from the spec: `WebsocketClient.on` — register `h` for event
`ev` unless that exact registration is already present. -/
def BusClient.on (c : BusClient) (ev h : String) : BusClient :=
  if (ev, h) ∈ c.handlers then c
  else { handlers := c.handlers ++ [(ev, h)] }

/-- Modelled from the spec: `WebsocketClient.remove` — drop every
registration of `h` for event `ev`; a no-op when none is present. -/
def BusClient.remove (c : BusClient) (ev h : String) : BusClient :=
  { handlers := c.handlers.filter (fun p => !(p == (ev, h))) }

/-- `Enclosure.__register_mouth_events`: register the four mouth-lifecycle
handlers, in source order. -/
def register_mouth_events (c : BusClient) : BusClient :=
  (((c.on "recognizer_loop:record_begin" "mouth.listen").on
      "recognizer_loop:record_end" "mouth.reset").on
      "recognizer_loop:audio_output_start" "mouth.talk").on
      "recognizer_loop:audio_output_end" "mouth.reset"

/-- `Enclosure.__remove_mouth_events`: remove the four mouth-lifecycle
handlers, in source order. -/
def remove_mouth_events (c : BusClient) : BusClient :=
  (((c.remove "recognizer_loop:record_begin" "mouth.listen").remove
      "recognizer_loop:record_end" "mouth.reset").remove
      "recognizer_loop:audio_output_start" "mouth.talk").remove
      "recognizer_loop:audio_output_end" "mouth.reset"

/-- A bus event as the handlers see it: its metadata dictionary, with the
truthiness-relevant values modelled as booleans.  An empty list models an
empty (falsy) metadata dictionary. -/
structure BusEvent where
  metadata : List (String × Bool)
  deriving DecidableEq, Repr

/-- `Enclosure.__mouth_listeners`: guarded by `if event and event.metadata:`;
inside the guard, `event.metadata['active']` raises a `KeyError`
(`Except.error ()`) when the key is absent, otherwise the set is activated
or deactivated according to the value. -/
def mouth_listeners (c : BusClient) (event : Option BusEvent) :
    Except Unit BusClient :=
  match event with
  | none => Except.ok c
  | some ev =>
    if ev.metadata = [] then Except.ok c
    else
      match ev.metadata.lookup "active" with
      | none => Except.error ()
      | some active =>
        Except.ok (if active then register_mouth_events c
                   else remove_mouth_events c)

/-- `Enclosure.__update_events`: guarded by `if event and event.metadata:`;
inside the guard, `event.metadata.get('paired', False)` selects activation
or deactivation, defaulting to deactivation. -/
def update_events (c : BusClient) (event : Option BusEvent) : BusClient :=
  match event with
  | none => c
  | some ev =>
    if ev.metadata = [] then c
    else
      if (ev.metadata.lookup "paired").getD false then register_mouth_events c
      else remove_mouth_events c

/-! ## Theorems -/

/-- Claim C4: for every inbound line, the raw line is first published
verbatim as a generic bus event, and then every substring rule of the
dispatch table whose substring is contained in the line fires exactly once,
in table order, independently of the other rules: the sequential if-chain
of `process` equals the raw emission followed by the flatMap of the
dispatch table's matching rules. -/
theorem claim_C4 (prev_vol : Nat) (data : List Char) :
    process prev_vol data = dispatch_spec prev_vol data := by
  simp [process, dispatch_spec, dispatch_table]

/-- One flush iteration writes the newline-terminated command on success
and logs the caught exception on failure. -/
theorem flush_iteration_eq (fail : Bool) (cmd : String) :
    flush_iteration fail cmd =
      if fail then WEvent.logged_error else WEvent.wrote (cmd ++ "\n") := by
  cases fail <;> rfl

/-- Claim C6: for every command dequeued by the writer loop, a failing
serial write is logged and the loop continues with the next command: the
loop produces exactly one event per command (so it neither terminates
early nor retries), and command number `k` yields a logged error exactly
when its write failed, and the newline-terminated write otherwise. -/
theorem claim_C6 (fail_at : Nat → Bool) (i : Nat) (cmds : List String) :
    flush fail_at i cmds =
      (List.enumFrom i cmds).map
        (fun p => if fail_at p.1 then WEvent.logged_error
                  else WEvent.wrote (p.2 ++ "\n")) ∧
    (flush fail_at i cmds).length = cmds.length := by
  constructor
  · induction cmds generalizing i with
    | nil => rfl
    | cons c rest ih => simp [flush, List.enumFrom, flush_iteration_eq, ih]
  · induction cmds generalizing i with
    | nil => rfl
    | cons c rest ih => simp [flush, ih]

/-- Claim C7: every invocation of the reset action enqueues exactly two
commands onto the outbound queue, in order `eyes.reset` then
`mouth.reset`, and nothing else: from any queue state with room for two
commands, running the two enqueues of `__handle_reset` appends exactly
those two commands to the queue and writes nothing. -/
theorem claim_C7 (cap : Nat) (q w : List String) (h : q.length + 2 ≤ cap) :
    wrun cap (q, w) handle_reset_ops =
      some (q ++ ["eyes.reset", "mouth.reset"], w) := by
  have h1 : q.length < cap := by omega
  have h2 : q.length + 1 < cap := by omega
  simp [handle_reset_ops, wrun, wstep, h1, h2]

/-- Witness for C7: on the empty queue with the default capacity 16. -/
theorem claim_C7_witness :
    wrun writer_default_size ([], []) handle_reset_ops =
      some (["eyes.reset", "mouth.reset"], []) :=
  claim_C7 writer_default_size [] [] (by decide)

/-- Counterexample to claim C8 as stated: under the `\n`-terminated line
protocol the reader does not strip exactly the trailing terminator.  For
the raw line `"ab\n"` the source's `readline()[:-2]` dispatches `"a"`,
losing the data character `'b'`. -/
theorem claim_C8_counterexample :
    ¬ (read_strip "ab\n".toList = "ab".toList) ∧
    read_strip "ab\n".toList = "a".toList := by
  constructor
  · decide
  · decide

/-- Claim C8, amended: the reader strips the last two characters of each
raw line.  For a `"\r\n"`-terminated line the dispatched payload is
exactly the line content; for a line terminated by `"\n"` alone the
payload is the content with its final character also removed. -/
theorem claim_C8 (content : List Char) :
    read_strip (content ++ ['\r', '\n']) = content ∧
    read_strip (content ++ ['\n']) = content.dropLast := by
  constructor
  · have hl : (content ++ ['\r', '\n']).length - 2 = content.length := by simp
    rw [read_strip, hl]
    exact List.take_left content _
  · have hl : (content ++ ['\n']).length - 2 = content.length - 1 := by simp
    rw [read_strip, hl, List.take_append_of_le_length (by omega),
      ← List.dropLast_eq_take]

/-- Claim C10: a pairing event or mouth-listener toggle event with absent
or empty metadata performs no registration and no removal: both handlers
leave the bus client's subscription table exactly unchanged (and raise
nothing). -/
theorem claim_C10 (c : BusClient) (event : Option BusEvent)
    (h : event = none ∨ event = some { metadata := [] }) :
    mouth_listeners c event = Except.ok c ∧ update_events c event = c := by
  rcases h with h | h <;> subst h <;> simp [mouth_listeners, update_events]

/-- Witness for C10: the absent event on the empty subscription table. -/
theorem claim_C10_witness :
    mouth_listeners { handlers := [] } none = Except.ok { handlers := [] } ∧
    update_events { handlers := [] } none = { handlers := [] } :=
  claim_C10 { handlers := [] } none (Or.inl rfl)

/-- The four (event, handler) registrations of the mouth subscription
set, in registration order. -/
def mouth_pairs : List (String × String) :=
  [("recognizer_loop:record_begin", "mouth.listen"),
   ("recognizer_loop:record_end", "mouth.reset"),
   ("recognizer_loop:audio_output_start", "mouth.talk"),
   ("recognizer_loop:audio_output_end", "mouth.reset")]

/-- Registering makes the pair present. -/
theorem BusClient.mem_on_self (c : BusClient) (ev h : String) :
    (ev, h) ∈ (c.on ev h).handlers := by
  unfold BusClient.on
  split
  · assumption
  · simp

/-- Registering preserves the pairs already present. -/
theorem BusClient.mem_on_of_mem (c : BusClient) (ev h : String)
    (p : String × String) (hp : p ∈ c.handlers) : p ∈ (c.on ev h).handlers := by
  unfold BusClient.on
  split
  · exact hp
  · simp [hp]

/-- Registering an already-present pair changes nothing. -/
theorem BusClient.on_eq_of_mem (c : BusClient) (ev h : String)
    (hm : (ev, h) ∈ c.handlers) : c.on ev h = c := by
  simp [BusClient.on, hm]

/-- Registering preserves duplicate-freedom of the table. -/
theorem BusClient.nodup_on (c : BusClient) (ev h : String)
    (hc : c.handlers.Nodup) : (c.on ev h).handlers.Nodup := by
  unfold BusClient.on
  split
  · exact hc
  · rw [List.nodup_append]
    refine ⟨hc, List.nodup_singleton _, ?_⟩
    simpa [List.disjoint_singleton] using (by assumption : (ev, h) ∉ c.handlers)

/-- Removing a pair that is not present changes nothing. -/
theorem BusClient.remove_eq_of_not_mem (c : BusClient) (ev h : String)
    (hm : (ev, h) ∉ c.handlers) : c.remove ev h = c := by
  unfold BusClient.remove
  have : c.handlers.filter (fun p => !(p == (ev, h))) = c.handlers := by
    apply List.filter_eq_self.mpr
    intro a ha
    simp only [Bool.not_eq_true', beq_eq_false_iff_ne, ne_eq]
    intro heq
    exact hm (heq ▸ ha)
  rw [this]

/-- Membership in the table after a removal implies prior membership. -/
theorem BusClient.mem_of_mem_remove (c : BusClient) (ev h : String)
    (p : String × String) (hp : p ∈ (c.remove ev h).handlers) :
    p ∈ c.handlers :=
  List.mem_of_mem_filter hp

/-- After activation all four mouth registrations are present. -/
theorem register_mouth_events_mem (c : BusClient) :
    ∀ p ∈ mouth_pairs, p ∈ (register_mouth_events c).handlers := by
  intro p hp
  have h1 := BusClient.mem_on_self
    (((c.on "recognizer_loop:record_begin" "mouth.listen").on
        "recognizer_loop:record_end" "mouth.reset").on
        "recognizer_loop:audio_output_start" "mouth.talk")
    "recognizer_loop:audio_output_end" "mouth.reset"
  have h2 := BusClient.mem_on_of_mem _ "recognizer_loop:audio_output_end"
    "mouth.reset" _
    (BusClient.mem_on_self
      ((c.on "recognizer_loop:record_begin" "mouth.listen").on
        "recognizer_loop:record_end" "mouth.reset")
      "recognizer_loop:audio_output_start" "mouth.talk")
  have h3 := BusClient.mem_on_of_mem _ "recognizer_loop:audio_output_end"
    "mouth.reset" _
    (BusClient.mem_on_of_mem _ "recognizer_loop:audio_output_start"
      "mouth.talk" _
      (BusClient.mem_on_self (c.on "recognizer_loop:record_begin" "mouth.listen")
        "recognizer_loop:record_end" "mouth.reset"))
  have h4 := BusClient.mem_on_of_mem _ "recognizer_loop:audio_output_end"
    "mouth.reset" _
    (BusClient.mem_on_of_mem _ "recognizer_loop:audio_output_start"
      "mouth.talk" _
      (BusClient.mem_on_of_mem _ "recognizer_loop:record_end" "mouth.reset" _
        (BusClient.mem_on_self c "recognizer_loop:record_begin" "mouth.listen")))
  simp only [mouth_pairs, List.mem_cons, List.not_mem_nil, or_false] at hp
  rcases hp with rfl | rfl | rfl | rfl
  · exact h4
  · exact h3
  · exact h2
  · exact h1

/-- Activating twice equals activating once. -/
theorem register_mouth_events_idem (c : BusClient) :
    register_mouth_events (register_mouth_events c) = register_mouth_events c := by
  have hm := register_mouth_events_mem c
  show ((((register_mouth_events c).on "recognizer_loop:record_begin"
      "mouth.listen").on "recognizer_loop:record_end" "mouth.reset").on
      "recognizer_loop:audio_output_start" "mouth.talk").on
      "recognizer_loop:audio_output_end" "mouth.reset" = register_mouth_events c
  rw [BusClient.on_eq_of_mem _ _ _ (hm _ (by simp [mouth_pairs])),
    BusClient.on_eq_of_mem _ _ _ (hm _ (by simp [mouth_pairs])),
    BusClient.on_eq_of_mem _ _ _ (hm _ (by simp [mouth_pairs])),
    BusClient.on_eq_of_mem _ _ _ (hm _ (by simp [mouth_pairs]))]

/-- After deactivation none of the four mouth registrations is present. -/
theorem remove_mouth_events_not_mem (c : BusClient) :
    ∀ p ∈ mouth_pairs, p ∉ (remove_mouth_events c).handlers := by
  intro p hp hmem
  simp only [mouth_pairs, List.mem_cons, List.not_mem_nil, or_false] at hp
  simp only [remove_mouth_events, BusClient.remove, List.mem_filter,
    Bool.not_eq_true', beq_eq_false_iff_ne, ne_eq] at hmem
  rcases hp with rfl | rfl | rfl | rfl <;> tauto

/-- Deactivating twice equals deactivating once. -/
theorem remove_mouth_events_idem (c : BusClient) :
    remove_mouth_events (remove_mouth_events c) = remove_mouth_events c := by
  have hm := remove_mouth_events_not_mem c
  show ((((remove_mouth_events c).remove "recognizer_loop:record_begin"
      "mouth.listen").remove "recognizer_loop:record_end" "mouth.reset").remove
      "recognizer_loop:audio_output_start" "mouth.talk").remove
      "recognizer_loop:audio_output_end" "mouth.reset" = remove_mouth_events c
  rw [BusClient.remove_eq_of_not_mem _ _ _ (hm _ (by simp [mouth_pairs])),
    BusClient.remove_eq_of_not_mem _ _ _ (hm _ (by simp [mouth_pairs])),
    BusClient.remove_eq_of_not_mem _ _ _ (hm _ (by simp [mouth_pairs])),
    BusClient.remove_eq_of_not_mem _ _ _ (hm _ (by simp [mouth_pairs]))]

/-- Claim C5: activation of the four-handler mouth subscription set is
idempotent, deactivation is idempotent, activation never duplicates a
registration (it preserves duplicate-freedom of the table), and
deactivating an already-inactive set raises no error and leaves the table
exactly unchanged. -/
theorem claim_C5 (c : BusClient) :
    register_mouth_events (register_mouth_events c) = register_mouth_events c ∧
    remove_mouth_events (remove_mouth_events c) = remove_mouth_events c ∧
    (c.handlers.Nodup → (register_mouth_events c).handlers.Nodup) ∧
    ((∀ p ∈ mouth_pairs, p ∉ c.handlers) → remove_mouth_events c = c) := by
  refine ⟨register_mouth_events_idem c, remove_mouth_events_idem c, ?_, ?_⟩
  · intro hc
    exact BusClient.nodup_on _ _ _ (BusClient.nodup_on _ _ _
      (BusClient.nodup_on _ _ _ (BusClient.nodup_on _ _ _ hc)))
  · intro hnone
    show (((c.remove "recognizer_loop:record_begin"
        "mouth.listen").remove "recognizer_loop:record_end" "mouth.reset").remove
        "recognizer_loop:audio_output_start" "mouth.talk").remove
        "recognizer_loop:audio_output_end" "mouth.reset" = c
    rw [BusClient.remove_eq_of_not_mem _ _ _ (hnone _ (by simp [mouth_pairs])),
      BusClient.remove_eq_of_not_mem _ _ _ (hnone _ (by simp [mouth_pairs])),
      BusClient.remove_eq_of_not_mem _ _ _ (hnone _ (by simp [mouth_pairs])),
      BusClient.remove_eq_of_not_mem _ _ _ (hnone _ (by simp [mouth_pairs]))]

/-- Witness for C5: on the empty subscription table, double activation
equals single activation and deactivation is an error-free no-op. -/
theorem claim_C5_witness :
    register_mouth_events (register_mouth_events { handlers := [] }) =
      register_mouth_events { handlers := [] } ∧
    remove_mouth_events { handlers := [] } = { handlers := [] } :=
  ⟨(claim_C5 { handlers := [] }).1,
   (claim_C5 { handlers := [] }).2.2.2 (by decide)⟩

/-- A completed run preserves the serial-line history: the history of the
final state is the initial history followed by the enqueued commands,
newline-terminated, in submission order. -/
theorem wrun_flow (cap : Nat) (ops : List QOp) :
    ∀ s s' : List String × List String, wrun cap s ops = some s' →
      flow s' = flow s ++ (enqs ops).map (fun c => c ++ "\n") := by
  induction ops with
  | nil =>
    intro s s' h
    simp [wrun] at h
    subst h
    simp [enqs]
  | cons op ops ih =>
    intro s s' h
    rcases s with ⟨q, w⟩
    cases op with
    | enq c =>
      simp only [wrun, wstep] at h
      by_cases hlen : q.length < cap
      · rw [if_pos hlen] at h
        have := ih (q ++ [c], w) s' h
        simp only [enqs, List.map_cons] at *
        rw [this]
        simp [flow, List.append_assoc]
      · rw [if_neg hlen] at h
        exact absurd h (by simp)
    | deq =>
      simp only [wrun, wstep] at h
      cases q with
      | nil => exact absurd h (by simp)
      | cons c rest =>
        have := ih (rest, w ++ [c ++ "\n"]) s' h
        simp only [enqs] at *
        rw [this]
        simp [flow, List.append_assoc]

/-- A completed run performs exactly one newline-terminated write per
dequeue operation. -/
theorem wrun_written_length (cap : Nat) (ops : List QOp) :
    ∀ s s' : List String × List String, wrun cap s ops = some s' →
      s'.2.length = s.2.length + deq_count ops := by
  induction ops with
  | nil =>
    intro s s' h
    simp [wrun] at h
    subst h
    simp [deq_count]
  | cons op ops ih =>
    intro s s' h
    rcases s with ⟨q, w⟩
    cases op with
    | enq c =>
      simp only [wrun, wstep] at h
      by_cases hlen : q.length < cap
      · rw [if_pos hlen] at h
        simpa [deq_count] using ih (q ++ [c], w) s' h
      · rw [if_neg hlen] at h
        exact absurd h (by simp)
    | deq =>
      simp only [wrun, wstep] at h
      cases q with
      | nil => exact absurd h (by simp)
      | cons c rest =>
        have := ih (rest, w ++ [c ++ "\n"]) s' h
        simp [deq_count, this]
        omega

/-- Claim C3: the outbound command queue is a strict FIFO of fixed
capacity (default 16).  For every completed interleaving of enqueues and
writer dequeues from the empty queue: the written lines followed by the
still-queued commands are exactly the enqueued commands in submission
order, each newline-terminated (so writes happen in exactly enqueue
order and nothing is dropped or reordered); the number of written lines
equals the number of dequeues; an enqueue on a full queue is not enabled
— the caller blocks and the command is not lost; and the default
capacity is 16. -/
theorem claim_C3 (cap : Nat) (ops : List QOp) (q w : List String)
    (h : wrun cap ([], []) ops = some (q, w)) :
    w ++ q.map (fun c => c ++ "\n") = (enqs ops).map (fun c => c ++ "\n") ∧
    w.length = deq_count ops ∧
    (∀ q2 w2 c, cap ≤ q2.length → wstep cap (q2, w2) (QOp.enq c) = none) ∧
    writer_default_size = 16 := by
  refine ⟨?_, ?_, ?_, rfl⟩
  · have := wrun_flow cap ops ([], []) (q, w) h
    simpa [flow] using this
  · have := wrun_written_length cap ops ([], []) (q, w) h
    simpa using this
  · intro q2 w2 c hfull
    simp [wstep]
    omega

/-- Witness for C3: enqueue `"a"` then `"b"` with capacity 2, then two
writer dequeues: the serial line sees `"a\n"` then `"b\n"`. -/
theorem claim_C3_witness :
    ["a\n", "b\n"] ++ ([] : List String).map (fun c => c ++ "\n") =
      (enqs [QOp.enq "a", QOp.enq "b", QOp.deq, QOp.deq]).map
        (fun c => c ++ "\n") ∧
    (["a\n", "b\n"] : List String).length =
      deq_count [QOp.enq "a", QOp.enq "b", QOp.deq, QOp.deq] ∧
    (∀ q2 w2 c, 2 ≤ q2.length → wstep 2 (q2, w2) (QOp.enq c) = none) ∧
    writer_default_size = 16 :=
  claim_C3 2 [QOp.enq "a", QOp.enq "b", QOp.deq, QOp.deq] [] ["a\n", "b\n"] rfl

/-- A handshake attempt on which the read times out with the empty line
resolves `"unknown"`, whatever the other serial operations do. -/
theorem detect_platform_of_empty_read (env : SerialTry)
    (h : env.readline = Except.ok []) : detect_platform env = "unknown" := by
  have hc : containsSub ping_echo [] = false := by decide
  rcases env with ⟨i, f1, f2, wp, rl, f3⟩
  simp only at h
  subst h
  rcases i with _ | _ <;> rcases f1 with _ | _ <;> rcases f2 with _ | _ <;>
    rcases wp with _ | _ <;>
    simp [detect_platform, detect_body, Except.bind, hc]

/-- A handshake attempt on which every operation succeeds and the reply
contains the ping echo resolves `"mycroft_mark_1"`. -/
theorem detect_platform_of_echo (d : List Char)
    (h : containsSub ping_echo d = true) :
    detect_platform (replying_try d) = "mycroft_mark_1" := by
  simp [detect_platform, detect_body, replying_try, Except.bind, h]

/-- Claim C9: platform detection is total at its interface: whatever the
serial transport does — including any of open, flush, write, or read
raising — `detect_platform` returns one of exactly the two values
`mycroft_mark_1` and `unknown`, and (being a total function of the
transport behaviour) propagates no exception to its caller. -/
theorem claim_C9 (env : SerialTry) :
    detect_platform env = "mycroft_mark_1" ∨ detect_platform env = "unknown" := by
  have hsome : ∀ p : String, detect_body env = Except.ok (some p) →
      p = "mycroft_mark_1" := by
    intro p h
    unfold detect_body at h
    repeat' split at h
    all_goals simp_all
  cases h : detect_body env with
  | error e => right; simp [detect_platform, h]
  | ok v =>
    cases v with
    | none => right; simp [detect_platform, h]
    | some p =>
      left
      simp [detect_platform, h]
      exact hsome p h

/-- Claim C2: during startup platform detection, a first handshake that
resolves `unknown` triggers exactly one additional full handshake before
the result is finalized and persisted; a transport that never replies
(every read times out empty) yields exactly two handshake attempts,
identity finalized `unknown`, and a failed startup; a well-behaved
transport whose reply contains `Command: system.ping` yields
`mycroft_mark_1` on the first attempt with no second attempt. -/
theorem claim_C2 (tr : Nat → SerialTry) :
    (detect_platform (tr 0) = "unknown" →
      (startup_detect tr).attempts = 2 ∧
      (startup_detect tr).platform = detect_platform (tr 1)) ∧
    ((∀ n, (tr n).readline = Except.ok []) →
      startup_detect tr =
        { platform := "unknown", attempts := 2, startup_failed := true }) ∧
    (∀ d, tr 0 = replying_try d → containsSub ping_echo d = true →
      startup_detect tr =
        { platform := "mycroft_mark_1", attempts := 1, startup_failed := false }) := by
  refine ⟨?_, ?_, ?_⟩
  · intro h
    simp [startup_detect, h]
  · intro h
    have h0 := detect_platform_of_empty_read (tr 0) (h 0)
    have h1 := detect_platform_of_empty_read (tr 1) (h 1)
    simp [startup_detect, h0, h1]
  · intro d h0 hd
    have hm : detect_platform (tr 0) = "mycroft_mark_1" := by
      rw [h0]
      exact detect_platform_of_echo d hd
    have hne : detect_platform (tr 0) ≠ "unknown" := by
      rw [hm]
      decide
    simp [startup_detect, hne, hm]

/-- Witness for C2: the silent transport makes exactly two attempts,
finalizes `unknown`, and fails startup. -/
theorem claim_C2_witness :
    startup_detect (fun _ => silent_try) =
      { platform := "unknown", attempts := 2, startup_failed := true } :=
  (claim_C2 (fun _ => silent_try)).2.1 (fun _ => rfl)

/-- If a branch raised during the table run, the raising branch's index is
one of the table's indices. -/
theorem run_table_raise_mem (f : Nat → Bool) (d : List Char) :
    ∀ ps : List (Nat × List Char), ∀ i : Nat,
      (run_table f d ps).2 = some i → i ∈ ps.map Prod.fst := by
  intro ps
  induction ps with
  | nil => intro i h; simp [run_table] at h
  | cons hd tl ih =>
    intro i h
    rcases hd with ⟨k, pat⟩
    simp only [run_table] at h
    by_cases hc : containsSub pat d = true
    · rw [if_pos hc] at h
      by_cases hf : f k = true
      · rw [if_pos hf] at h
        simp only at h
        simp [← Option.some_inj.mp h]
      · rw [if_neg hf] at h
        simp only at h
        simp [ih i h]
    · rw [if_neg hc] at h
      simp [ih i h]

/-- In the sequential if-chain, once a branch raises nothing later runs:
if the table's indices are in increasing order and branch `i` raised,
every branch that fired has index at most `i`. -/
theorem run_table_fired_le (f : Nat → Bool) (d : List Char) :
    ∀ ps : List (Nat × List Char),
      List.Pairwise (fun a b : Nat × List Char => a.1 ≤ b.1) ps →
      ∀ i : Nat, (run_table f d ps).2 = some i →
      ∀ j ∈ (run_table f d ps).1, j ≤ i := by
  intro ps
  induction ps with
  | nil => intro _ i h; simp [run_table] at h
  | cons hd tl ih =>
    intro hp i h j hj
    rcases hd with ⟨k, pat⟩
    rcases List.pairwise_cons.mp hp with ⟨hk, htl⟩
    simp only [run_table] at h hj
    by_cases hc : containsSub pat d = true
    · rw [if_pos hc] at h hj
      by_cases hf : f k = true
      · rw [if_pos hf] at h hj
        simp only at h hj
        have hik : i = k := (Option.some_inj.mp h).symm
        subst hik
        have : j = i := by simpa using hj
        omega
      · rw [if_neg hf] at h hj
        simp only at h hj
        rcases List.mem_cons.mp hj with rfl | hj2
        · have hmem := run_table_raise_mem f d tl i h
          rcases List.mem_map.mp hmem with ⟨b, hb, hbi⟩
          exact hbi ▸ hk b hb
        · exact ih htl i h j hj2
    · rw [if_neg hc] at h hj
      exact ih htl i h j hj

/-- The read loop yields one iteration result per arriving line, whatever
faults its dispatch branches raise. -/
theorem read_loop_length (faults : Nat → Nat → Bool) :
    ∀ (k : Nat) (lines : List (List Char)),
      (read_loop faults k lines).length = lines.length := by
  intro k lines
  induction lines generalizing k with
  | nil => rfl
  | cons raw rest ih => simp [read_loop, ih]

/-- Counterexample to claim C1 as stated: dispatch branches are not
independently guarded.  On the line `"volume.up mic.test"` with the
`volume.up` branch (index 1) raising, the `mic.test` substring occurs in
the line, yet the `mic.test` branch (index 5) is never evaluated: the
single `try/except` sits around the whole per-line dispatch, not around
each branch. -/
theorem claim_C1_counterexample :
    containsSub "mic.test".toList "volume.up mic.test".toList = true ∧
    (process_faulty (fun i => i == 1) "volume.up mic.test".toList).2 = some 1 ∧
    ¬ 5 ∈ (process_faulty (fun i => i == 1) "volume.up mic.test".toList).1 := by
  refine ⟨by decide, by decide, by decide⟩

/-- Claim C1, amended: an exception in one dispatch branch aborts the
remaining branches for that line — every branch that fired has index at
most the raising branch's.  The guard is per line, in the reader loop:
the exception is caught there, so every subsequent line is still read
and dispatched (one iteration result per arriving line). -/
theorem claim_C1 (fault : Nat → Bool) (data : List Char) (i j : Nat)
    (faults : Nat → Nat → Bool) (lines : List (List Char))
    (hraise : (process_faulty fault data).2 = some i)
    (hj : j ∈ (process_faulty fault data).1) :
    j ≤ i ∧ (read_loop faults 0 lines).length = lines.length := by
  constructor
  · exact run_table_fired_le fault data indexed_patterns (by decide) i hraise j hj
  · exact read_loop_length faults 0 lines

/-- Witness for C1: the faulting `volume.up` branch itself fired (index 1
at most 1), and a two-line arrival sequence still yields two iteration
results. -/
theorem claim_C1_witness :
    (1 : Nat) ≤ 1 ∧
    (read_loop (fun _ _ => false) 0
      ["volume.up mic.test".toList, "mycroft.stop".toList]).length =
      (["volume.up mic.test".toList, "mycroft.stop".toList] :
        List (List Char)).length :=
  claim_C1 (fun i => i == 1) "volume.up mic.test".toList 1 1
    (fun _ _ => false) ["volume.up mic.test".toList, "mycroft.stop".toList]
    (by decide) (by decide)

end Enclosure
